import Mathlib

/-!
# SuperhireX — Swipe Ledger & Match Detector, shallow embedding

Shallow embedding of the swipe-and-match decision engine of the SuperhireX
repository, translated from the source:

* `src/services/swipeService.ts` — `SwipeService.recordSwipe`: direct-Supabase
  variant; inserts a swipe row, and on a RIGHT swipe queries the reciprocal
  swipe (`.single()`), inserting a `matches` row when found. On insert error
  it returns the development fallback `{ isMatch: direction === "right" &&
  Math.random() > 0.8 }`.
* `src/backend/schema.sql` — `swipes` has `UNIQUE(swiper_id, target_id, …)`;
  a duplicate insert is rejected by the store and surfaces as `swipeError`.
* `src/App.tsx` — `handleSwipe`: optimistic card removal then ledger write.
* `src/frontend/services/dataService.ts` — `DataService.getJobs`: backend
  fetch with mock-data fallback on failure.
* `src/lib/supabase.ts` (constants section) — `MOCK_JOBS`.

Database effects (Supabase calls) are modelled with explicit availability
flags and an explicit boolean for the `Math.random() > 0.8` draw, so every
run of the service is a pure function of its inputs and the ledger state.
-/

namespace SuperhireX

/-- Swipe direction: `"left" | "right"` in the source. -/
inductive Direction where
  | left
  | right
deriving DecidableEq, Repr

/-- A row of the `swipes` table as inserted by `SwipeService.recordSwipe`
(`{ swiper_id, target_id, type }`). -/
structure SwipeRow where
  swiper_id : String
  target_id : String
  type : Direction
deriving DecidableEq, Repr

/-- A row of the `matches` table as inserted by `SwipeService.recordSwipe`
(`{ user_a, user_b }`); `user_a` is the swiper whose call detected the match. -/
structure MatchRow where
  user_a : String
  user_b : String
deriving DecidableEq, Repr

/-- The backing store: the `swipes` and `matches` tables, rows in insertion
order (append-only). -/
structure LedgerState where
  swipes : List SwipeRow
  match_rows : List MatchRow
deriving DecidableEq, Repr

/-- Fresh database. -/
def emptyLedger : LedgerState := ⟨[], []⟩

/-- Errors a Supabase call can report through its `error` field. -/
inductive DbError where
  | unavailable
  | uniqueViolation
  | noSingleRow
deriving DecidableEq, Repr

/-- Returns `true` iff the `swipes` table holds a row keyed `(s, t)` (any direction):
the uniqueness key of `schema.sql` checked by the store on insert. -/
def anySwipe (l : List SwipeRow) (s t : String) : Bool :=
  l.any fun r => decide (r.swiper_id = s ∧ r.target_id = t)

/-- Returns `true` iff the `swipes` table holds a row `(s, t)` with direction `d`. -/
def anySwipeDir (l : List SwipeRow) (s t : String) (d : Direction) : Bool :=
  l.any fun r => decide (r.swiper_id = s ∧ r.target_id = t ∧ r.type = d)

/-- Number of `swipes` rows keyed `(s, t)`. -/
def countPair (l : List SwipeRow) (s t : String) : Nat :=
  (l.filter fun r => decide (r.swiper_id = s ∧ r.target_id = t)).length

/-- Number of `matches` rows joining the unordered pair `{a, b}`. -/
def countMatches (l : List MatchRow) (a b : String) : Nat :=
  (l.filter fun m =>
    decide ((m.user_a = a ∧ m.user_b = b) ∨ (m.user_a = b ∧ m.user_b = a))).length

/-- The call `supabase.from("swipes").insert(...)`: fails when the store is
unavailable, or when the row violates the `UNIQUE(swiper_id, target_id, …)`
constraint of `schema.sql`; otherwise appends the row. -/
def dbInsertSwipe (avail : Bool) (st : LedgerState) (row : SwipeRow) :
    Except DbError LedgerState :=
  if !avail then .error .unavailable
  else if anySwipe st.swipes row.swiper_id row.target_id then .error .uniqueViolation
  else .ok { st with swipes := st.swipes ++ [row] }

/-- The reciprocal query, selecting from `swipes` the rows with swiper `s`,
target `t` and type right, with `.single()`: PostgREST `.single()` yields data exactly when
the query succeeds and returns exactly one row; otherwise `error` is set and
`data` is null. -/
def dbSelectReciprocal (avail : Bool) (st : LedgerState) (s t : String) :
    Except DbError SwipeRow :=
  if !avail then .error .unavailable
  else
    match st.swipes.filter fun r =>
        decide (r.swiper_id = s ∧ r.target_id = t ∧ r.type = Direction.right) with
    | [row] => .ok row
    | _ => .error .noSingleRow

/-- The result shape of `recordSwipe`: `{ isMatch: boolean }`. -/
structure SwipeResult where
  isMatch : Bool
deriving DecidableEq, Repr

/-- Shallow embedding of `SwipeService.recordSwipe`
(`src/services/swipeService.ts`).

`insAvail` / `selAvail` model the availability of the store for the swipe
insert and for the reciprocal select respectively; `rand` models the outcome
of `Math.random() > 0.8` in the development fallback branch. Returns the
backing store after the call together with the `{ isMatch }` result.

Source structure mirrored:
1. insert the swipe; on `swipeError`, return
   `{ isMatch: direction === "right" && Math.random() > 0.8 }`;
2. when `direction === "right"`, select the reciprocal swipe with
   `.single()`; if data was returned without error, insert
   `{ user_a: userId, user_b: targetId }` into `matches` and return
   `{ isMatch: true }`;
3. otherwise return `{ isMatch: false }`. -/
def recordSwipe (st : LedgerState) (userId targetId : String) (direction : Direction)
    (insAvail selAvail rand : Bool) : LedgerState × SwipeResult :=
  match dbInsertSwipe insAvail st ⟨userId, targetId, direction⟩ with
  | .error _ =>
      (st, ⟨decide (direction = Direction.right) && rand⟩)
  | .ok st1 =>
      if direction = Direction.right then
        match dbSelectReciprocal selAvail st1 targetId userId with
        | .ok _ =>
            ({ st1 with match_rows := st1.match_rows ++ [⟨userId, targetId⟩] }, ⟨true⟩)
        | .error _ => (st1, ⟨false⟩)
      else (st1, ⟨false⟩)

/-- One client call to `recordSwipe`, with its environment (availability of
the two store operations and the random draw). -/
structure Op where
  userId : String
  targetId : String
  dir : Direction
  insAvail : Bool
  selAvail : Bool
  rand : Bool
deriving DecidableEq, Repr

/-- The store after one call. -/
def step (st : LedgerState) (op : Op) : LedgerState :=
  (recordSwipe st op.userId op.targetId op.dir op.insAvail op.selAvail op.rand).1

/-- The store after a sequence of `recordSwipe` calls against a fresh
database. -/
def runOps (ops : List Op) : LedgerState :=
  ops.foldl step emptyLedger

/-- State-level abbreviations used by the theorems. -/
def hasSwipe (st : LedgerState) (s t : String) (d : Direction) : Bool :=
  anySwipeDir st.swipes s t d

def hasSwiped (st : LedgerState) (s t : String) : Bool :=
  anySwipe st.swipes s t

def matchCount (st : LedgerState) (a b : String) : Nat :=
  countMatches st.match_rows a b

def swipeCount (st : LedgerState) (s t : String) : Nat :=
  countPair st.swipes s t

/-- Number of `swipes` rows keyed `(s, t)` with direction `d`: the row count
seen by the reciprocal `.single()` query. -/
def countPairDir (l : List SwipeRow) (s t : String) (d : Direction) : Nat :=
  (l.filter fun r => decide (r.swiper_id = s ∧ r.target_id = t ∧ r.type = d)).length

/-- The two database invariants the swipe/match engine relies on: the store
holds at most one swipe per `(swiper, target)` pair, and it holds exactly one
match per unordered pair with mutual right-swipes (zero otherwise). -/
def Inv (st : LedgerState) : Prop :=
  (∀ s t, countPair st.swipes s t ≤ 1) ∧
  (∀ a b, countMatches st.match_rows a b =
    if anySwipeDir st.swipes a b Direction.right = true ∧
        anySwipeDir st.swipes b a Direction.right = true
    then 1 else 0)

/-- A `Job` card as defined in `src/types.ts`. -/
structure Job where
  id : String
  title : String
  company : String
  location : String
  salary : String
  description : String
  requirements : List String
  postedAt : String
  logo : String
deriving DecidableEq, Repr

/-- First entry of `MOCK_JOBS` (`src/lib/supabase.ts`, constants section). -/
def mockJob1 : Job :=
  ⟨"j1", "Senior Frontend Engineer", "TechFlow", "Remote", "$140k - $180k",
    "Looking for a React expert with deep knowledge of performance optimization.",
    ["React", "TypeScript", "Tailwind CSS"], "2h ago",
    "https://picsum.photos/seed/tech/100/100"⟩

/-- Second entry of `MOCK_JOBS`. -/
def mockJob2 : Job :=
  ⟨"j2", "Product Designer", "Canvas AI", "San Francisco, CA", "$120k - $160k",
    "Join our design team to build the future of generative UI.",
    ["Figma", "UI/UX", "Prototyping"], "5h ago",
    "https://picsum.photos/seed/design/100/100"⟩

/-- Third entry of `MOCK_JOBS`. -/
def mockJob3 : Job :=
  ⟨"j3", "Fullstack Developer", "Kergox", "Hybrid", "$130k - $170k",
    "Help us scale the next generation of job matching platforms.",
    ["Node.js", "PostgreSQL", "React"], "1d ago",
    "https://picsum.photos/seed/kergox/100/100"⟩

/-- The fallback sample feed `MOCK_JOBS`. -/
def MOCK_JOBS : List Job := [mockJob1, mockJob2, mockJob3]

/-- Shallow embedding of `handleSwipe` in `src/App.tsx` (seeker path): if no
session, return unchanged; otherwise optimistically remove the card with the
swiped id from the stack, delegate to `swipeService.recordSwipe`, and surface
`isMatch` as the match overlay flag. The stack update
(`prev.filter(j => j.id !== id)`) does not depend on the ledger outcome. -/
def handleSwipe (session : Option String) (st : LedgerState) (jobs : List Job)
    (direction : Direction) (id : String) (insAvail selAvail rand : Bool) :
    List Job × LedgerState × Bool :=
  match session with
  | none => (jobs, st, false)
  | some userId =>
      let stack := jobs.filter fun j => decide (j.id ≠ id)
      let r := recordSwipe st userId id direction insAvail selAvail rand
      (stack, r.1, r.2.isMatch)

/-- Shallow embedding of `DataService.getJobs`
(`src/frontend/services/dataService.ts`): the `api.getJobs` call either
yields a job list or throws; the catch branch returns `MOCK_JOBS`. -/
def getJobs (upstream : Except String (List Job)) : List Job :=
  match upstream with
  | .ok jobs => jobs
  | .error _ => MOCK_JOBS

/-- The card-stack UI state touched by `loadData` in `src/App.tsx`. -/
structure AppState where
  loading : Bool
  jobs : List Job
deriving DecidableEq, Repr

/-- Shallow embedding of `loadData` in `src/App.tsx` (seeker path):
`setLoading(true); const data = await dataService.getJobs(); setJobs(data);
setLoading(false)`. The final state after the call resolves. -/
def loadData (upstream : Except String (List Job)) (s : AppState) : AppState :=
  { s with jobs := getJobs upstream, loading := false }

/-- Modelled from the spec: the backend job-feed handler (`GET /api/jobs`,
implemented by the backend server, which is not part of `src/`): "Must
exclude any Card whose id already has a recorded Swipe by
`identity.userId`", returning at most `limit` cards. -/
def backendGetJobs (st : LedgerState) (userId : String) (allJobs : List Job)
    (limit : Nat) : List Job :=
  (allJobs.filter fun j => !hasSwiped st userId j.id).take limit

/-- Definition `fetchFeed`: `DataService.getJobs` with the upstream outcome made
explicit — when the backend is reachable it serves the filtered feed
(`backendGetJobs`); when it is not, the catch branch of
`src/frontend/services/dataService.ts` returns the unfiltered `MOCK_JOBS`. -/
def fetchFeed (st : LedgerState) (userId : String) (allJobs : List Job)
    (limit : Nat) (upstreamAvail : Bool) : List Job :=
  if upstreamAvail then backendGetJobs st userId allJobs limit else MOCK_JOBS

/-! ## Basic lemmas about the table predicates -/

theorem anySwipe_eq_true_iff (l : List SwipeRow) (s t : String) :
    anySwipe l s t = true ↔ ∃ r ∈ l, r.swiper_id = s ∧ r.target_id = t := by
  simp [anySwipe, List.any_eq_true]

theorem anySwipeDir_eq_true_iff (l : List SwipeRow) (s t : String) (d : Direction) :
    anySwipeDir l s t d = true ↔
      ∃ r ∈ l, r.swiper_id = s ∧ r.target_id = t ∧ r.type = d := by
  simp [anySwipeDir, List.any_eq_true]

theorem anySwipe_append (l : List SwipeRow) (r : SwipeRow) (s t : String) :
    anySwipe (l ++ [r]) s t =
      (anySwipe l s t || decide (r.swiper_id = s ∧ r.target_id = t)) := by
  simp [anySwipe]

theorem anySwipeDir_append (l : List SwipeRow) (r : SwipeRow) (s t : String)
    (d : Direction) :
    anySwipeDir (l ++ [r]) s t d =
      (anySwipeDir l s t d ||
        decide (r.swiper_id = s ∧ r.target_id = t ∧ r.type = d)) := by
  simp [anySwipeDir]

theorem countPair_append (l : List SwipeRow) (r : SwipeRow) (s t : String) :
    countPair (l ++ [r]) s t =
      countPair l s t + (if r.swiper_id = s ∧ r.target_id = t then 1 else 0) := by
  simp only [countPair, List.filter_append, List.length_append,
    List.filter_singleton]
  by_cases h : r.swiper_id = s ∧ r.target_id = t <;> simp [h]

theorem countPairDir_append (l : List SwipeRow) (r : SwipeRow) (s t : String)
    (d : Direction) :
    countPairDir (l ++ [r]) s t d =
      countPairDir l s t d +
        (if r.swiper_id = s ∧ r.target_id = t ∧ r.type = d then 1 else 0) := by
  simp only [countPairDir, List.filter_append, List.length_append,
    List.filter_singleton]
  by_cases h : r.swiper_id = s ∧ r.target_id = t ∧ r.type = d <;> simp [h]

theorem countMatches_append (l : List MatchRow) (m : MatchRow) (a b : String) :
    countMatches (l ++ [m]) a b =
      countMatches l a b +
        (if (m.user_a = a ∧ m.user_b = b) ∨ (m.user_a = b ∧ m.user_b = a)
         then 1 else 0) := by
  simp only [countMatches, List.filter_append, List.length_append,
    List.filter_singleton]
  by_cases h : (m.user_a = a ∧ m.user_b = b) ∨ (m.user_a = b ∧ m.user_b = a) <;>
    simp [h]

theorem anySwipe_eq_false_iff (l : List SwipeRow) (s t : String) :
    anySwipe l s t = false ↔ countPair l s t = 0 := by
  simp [anySwipe, countPair, List.any_eq_false, List.length_eq_zero,
    List.filter_eq_nil_iff]

theorem anySwipeDir_eq_true_iff_pos (l : List SwipeRow) (s t : String)
    (d : Direction) :
    anySwipeDir l s t d = true ↔ 0 < countPairDir l s t d := by
  rw [anySwipeDir_eq_true_iff, countPairDir, List.length_pos, Ne,
    List.filter_eq_nil_iff]
  push_neg
  simp

theorem anySwipeDir_imp_anySwipe (l : List SwipeRow) (s t : String) (d : Direction)
    (h : anySwipeDir l s t d = true) : anySwipe l s t = true := by
  rw [anySwipeDir_eq_true_iff] at h
  rw [anySwipe_eq_true_iff]
  rcases h with ⟨r, hr, h1, h2, _⟩
  exact ⟨r, hr, h1, h2⟩

theorem countPairDir_le_countPair (l : List SwipeRow) (s t : String) (d : Direction) :
    countPairDir l s t d ≤ countPair l s t := by
  induction l with
  | nil => simp [countPairDir, countPair]
  | cons r l ih =>
      simp only [countPairDir, countPair] at ih ⊢
      rw [List.filter_cons, List.filter_cons]
      by_cases h1 : r.swiper_id = s ∧ r.target_id = t
      · by_cases h2 : r.type = d
        · rw [if_pos (by simp only [decide_eq_true_eq]; tauto),
            if_pos (by simp only [decide_eq_true_eq]; tauto)]
          simp only [List.length_cons]
          omega
        · rw [if_neg (by simp only [decide_eq_true_eq]; tauto),
            if_pos (by simp only [decide_eq_true_eq]; tauto)]
          simp only [List.length_cons]
          omega
      · rw [if_neg (by simp only [decide_eq_true_eq]; tauto),
          if_neg (by simp only [decide_eq_true_eq]; tauto)]
        exact ih

/-! ## Case characterization of `recordSwipe` -/

theorem dbSelectReciprocal_ok_count {avail : Bool} {st : LedgerState}
    {s t : String} {r : SwipeRow}
    (h : dbSelectReciprocal avail st s t = .ok r) :
    countPairDir st.swipes s t Direction.right = 1 := by
  unfold dbSelectReciprocal at h
  cases avail with
  | false => simp at h
  | true =>
      simp only [Bool.not_true, Bool.false_eq_true, if_false] at h
      unfold countPairDir
      rcases hf : st.swipes.filter
          (fun r => decide (r.swiper_id = s ∧ r.target_id = t ∧
            r.type = Direction.right)) with _ | ⟨row, rest⟩
      · rw [hf] at h; simp at h
      · cases rest with
        | nil => rw [hf]; rfl
        | cons row2 rest2 => rw [hf] at h; simp at h

theorem dbSelectReciprocal_error_count {avail : Bool} {st : LedgerState}
    {s t : String} {e : DbError} (havail : avail = true)
    (h : dbSelectReciprocal avail st s t = .error e) :
    countPairDir st.swipes s t Direction.right ≠ 1 := by
  subst havail
  unfold dbSelectReciprocal at h
  simp only [Bool.not_true, Bool.false_eq_true, if_false] at h
  unfold countPairDir
  rcases hf : st.swipes.filter
      (fun r => decide (r.swiper_id = s ∧ r.target_id = t ∧
        r.type = Direction.right)) with _ | ⟨row, rest⟩
  · rw [hf]; simp
  · cases rest with
    | nil => rw [hf] at h; simp at h
    | cons row2 rest2 => rw [hf]; simp

/-- Closed-form case analysis of `recordSwipe`: the fallback branch fires
exactly when the insert is unavailable or the pair is a duplicate; the match
branch fires exactly on an available RIGHT swipe whose reciprocal `.single()`
query returns exactly one row. -/
theorem recordSwipe_cases (st : LedgerState) (u t : String) (d : Direction)
    (ins sel rand : Bool) :
    recordSwipe st u t d ins sel rand =
      if ins = false ∨ anySwipe st.swipes u t = true then
        (st, ⟨decide (d = Direction.right) && rand⟩)
      else if d = Direction.right ∧ sel = true ∧
          countPairDir (st.swipes ++ [⟨u, t, d⟩]) t u Direction.right = 1 then
        (⟨st.swipes ++ [⟨u, t, d⟩], st.match_rows ++ [⟨u, t⟩]⟩, ⟨true⟩)
      else
        (⟨st.swipes ++ [⟨u, t, d⟩], st.match_rows⟩, ⟨false⟩) := by
  cases ins with
  | false => simp [recordSwipe, dbInsertSwipe]
  | true =>
      by_cases hdup : anySwipe st.swipes u t = true
      · simp [recordSwipe, dbInsertSwipe, hdup]
      · have hins : dbInsertSwipe true st ⟨u, t, d⟩ =
            .ok ⟨st.swipes ++ [⟨u, t, d⟩], st.match_rows⟩ := by
          simp [dbInsertSwipe, hdup]
        cases d with
        | left => simp [recordSwipe, hins, hdup]
        | right =>
            cases sel with
            | false => simp [recordSwipe, hins, hdup, dbSelectReciprocal]
            | true =>
                cases hsel : dbSelectReciprocal true
                    ⟨st.swipes ++ [⟨u, t, Direction.right⟩], st.match_rows⟩
                    t u with
                | error e =>
                    have hc := dbSelectReciprocal_error_count rfl hsel
                    simp only [LedgerState.swipes] at hc
                    simp [recordSwipe, hins, hsel, hdup, hc]
                | ok row =>
                    have hc := dbSelectReciprocal_ok_count hsel
                    simp only [LedgerState.swipes] at hc
                    simp [recordSwipe, hins, hsel, hdup, hc]

/-! ## The ledger invariant -/

theorem anySwipeDir_append_of_ne (l : List SwipeRow) (r : SwipeRow)
    (s t : String) (d : Direction)
    (hne : ¬(r.swiper_id = s ∧ r.target_id = t ∧ r.type = d)) :
    anySwipeDir (l ++ [r]) s t d = anySwipeDir l s t d := by
  rw [anySwipeDir_append]
  simp [hne]

theorem anySwipeDir_append_self (l : List SwipeRow) (r : SwipeRow) :
    anySwipeDir (l ++ [r]) r.swiper_id r.target_id r.type = true := by
  rw [anySwipeDir_append]
  simp

theorem anySwipeDir_append_of_mem (l : List SwipeRow) (r : SwipeRow)
    (s t : String) (d : Direction) (h : anySwipeDir l s t d = true) :
    anySwipeDir (l ++ [r]) s t d = true := by
  rw [anySwipeDir_append, h, Bool.true_or]

theorem unique_insert (sw : List SwipeRow) (row : SwipeRow)
    (hu : ∀ s t, countPair sw s t ≤ 1)
    (h0 : countPair sw row.swiper_id row.target_id = 0) :
    ∀ s t, countPair (sw ++ [row]) s t ≤ 1 := by
  intro s t
  rw [countPair_append]
  by_cases hc : row.swiper_id = s ∧ row.target_id = t
  · obtain ⟨h1, h2⟩ := hc
    rw [if_pos ⟨h1, h2⟩, ← h1, ← h2, h0]
  · rw [if_neg hc]
    have := hu s t
    omega

theorem inv_empty : Inv emptyLedger := by
  constructor <;> intro a b <;>
    simp [emptyLedger, countPair, countMatches, anySwipeDir]

/-- One `recordSwipe` call preserves the ledger invariant, for any insert
availability and random draw, as long as the reciprocal query is answered by
the store. -/
theorem inv_step (st : LedgerState) (op : Op) (hsel : op.selAvail = true)
    (h : Inv st) : Inv (step st op) := by
  obtain ⟨huniq, hmatch⟩ := h
  obtain ⟨u, t, d, ins, sel, rnd⟩ := op
  have hsel' : sel = true := hsel
  subst hsel'
  show Inv (recordSwipe st u t d ins true rnd).1
  rw [recordSwipe_cases]
  by_cases h1 : ins = false ∨ anySwipe st.swipes u t = true
  · rw [if_pos h1]
    exact ⟨huniq, hmatch⟩
  · rw [if_neg h1]
    push_neg at h1
    obtain ⟨-, hdup⟩ := h1
    have hdup' : anySwipe st.swipes u t = false := Bool.eq_false_iff.mpr hdup
    have hcp0 : countPair st.swipes u t = 0 :=
      (anySwipe_eq_false_iff _ _ _).mp hdup'
    have hDut : anySwipeDir st.swipes u t Direction.right = false := by
      refine Bool.eq_false_iff.mpr fun hh => ?_
      have h3 := anySwipeDir_imp_anySwipe _ _ _ _ hh
      rw [hdup'] at h3
      exact Bool.false_ne_true h3
    have hcDut : countPairDir st.swipes u t Direction.right = 0 := by
      have h3 := countPairDir_le_countPair st.swipes u t Direction.right
      omega
    by_cases h2 : d = Direction.right ∧ true = true ∧
        countPairDir (st.swipes ++ [⟨u, t, d⟩]) t u Direction.right = 1
    · rw [if_pos h2]
      obtain ⟨hd, -, hcnt⟩ := h2
      subst hd
      show Inv ⟨st.swipes ++ [⟨u, t, Direction.right⟩],
        st.match_rows ++ [⟨u, t⟩]⟩
      have hF2 : anySwipeDir st.swipes t u Direction.right = true ∨ u = t := by
        by_cases hut : u = t
        · exact Or.inr hut
        · left
          rw [countPairDir_append, if_neg (fun hc => hut hc.1)] at hcnt
          rw [anySwipeDir_eq_true_iff_pos]
          omega
      refine ⟨unique_insert st.swipes _ huniq hcp0, ?_⟩
      intro a b
      rw [countMatches_append, hmatch a b]
      by_cases hpab : u = a ∧ t = b
      · obtain ⟨ha, hb⟩ := hpab
        subst ha
        subst hb
        have hC2 : anySwipeDir (st.swipes ++ [⟨u, t, Direction.right⟩]) t u
            Direction.right = true := by
          rcases hF2 with hf | hf
          · exact anySwipeDir_append_of_mem _ _ _ _ _ hf
          · subst hf
            exact anySwipeDir_append_self st.swipes ⟨u, u, Direction.right⟩
        rw [if_neg (fun hc => by rw [hDut] at hc; exact Bool.false_ne_true hc.1),
          if_pos (Or.inl ⟨rfl, rfl⟩),
          if_pos ⟨anySwipeDir_append_self st.swipes ⟨u, t, Direction.right⟩, hC2⟩]
      · by_cases hpba : u = b ∧ t = a
        · obtain ⟨hb, ha⟩ := hpba
          subst hb
          subst ha
          have hut : u ≠ t := fun hh => hpab ⟨hh, hh.symm⟩
          have hDtu : anySwipeDir st.swipes t u Direction.right = true := by
            rcases hF2 with hf | hf
            · exact hf
            · exact absurd hf hut
          rw [if_neg (fun hc => by rw [hDut] at hc; exact Bool.false_ne_true hc.2),
            if_pos (Or.inr ⟨rfl, rfl⟩),
            if_pos ⟨anySwipeDir_append_of_mem _ _ _ _ _ hDtu,
              anySwipeDir_append_self st.swipes ⟨u, t, Direction.right⟩⟩]
        · have e1 := anySwipeDir_append_of_ne st.swipes ⟨u, t, Direction.right⟩
            a b Direction.right (fun hc => hpab ⟨hc.1, hc.2.1⟩)
          have e2 := anySwipeDir_append_of_ne st.swipes ⟨u, t, Direction.right⟩
            b a Direction.right (fun hc => hpba ⟨hc.1, hc.2.1⟩)
          have hmr : ¬(((⟨u, t⟩ : MatchRow).user_a = a ∧
                (⟨u, t⟩ : MatchRow).user_b = b) ∨
              ((⟨u, t⟩ : MatchRow).user_a = b ∧
                (⟨u, t⟩ : MatchRow).user_b = a)) :=
            fun hc => hc.elim (fun x => hpab ⟨x.1, x.2⟩)
              (fun x => hpba ⟨x.1, x.2⟩)
          rw [e1, e2, if_neg hmr]
          omega
    · rw [if_neg h2]
      show Inv ⟨st.swipes ++ [⟨u, t, d⟩], st.match_rows⟩
      refine ⟨unique_insert st.swipes _ huniq hcp0, ?_⟩
      intro a b
      cases d with
      | left =>
          have e1 := anySwipeDir_append_of_ne st.swipes ⟨u, t, Direction.left⟩
            a b Direction.right (fun hc => Direction.noConfusion hc.2.2)
          have e2 := anySwipeDir_append_of_ne st.swipes ⟨u, t, Direction.left⟩
            b a Direction.right (fun hc => Direction.noConfusion hc.2.2)
          rw [e1, e2]
          exact hmatch a b
      | right =>
          have hcnt' : countPairDir (st.swipes ++ [⟨u, t, Direction.right⟩]) t u
              Direction.right ≠ 1 := fun hc => h2 ⟨rfl, rfl, hc⟩
          have hut : u ≠ t := by
            intro hh
            subst hh
            apply hcnt'
            rw [countPairDir_append, if_pos ⟨rfl, rfl, rfl⟩, hcDut]
          have hDtu : anySwipeDir st.swipes t u Direction.right = false := by
            refine Bool.eq_false_iff.mpr fun hh => ?_
            apply hcnt'
            rw [countPairDir_append, if_neg (fun hc => hut hc.1)]
            have hp := (anySwipeDir_eq_true_iff_pos _ _ _ _).mp hh
            have hle := countPairDir_le_countPair st.swipes t u Direction.right
            have hu1 := huniq t u
            omega
          have e1 := anySwipeDir_append_of_ne st.swipes ⟨u, t, Direction.right⟩
            t u Direction.right (fun hc => hut hc.1)
          have hnew : anySwipeDir (st.swipes ++ [⟨u, t, Direction.right⟩]) t u
              Direction.right = false := by rw [e1]; exact hDtu
          by_cases hpab : u = a ∧ t = b
          · obtain ⟨ha, hb⟩ := hpab
            subst ha
            subst hb
            rw [hmatch u t,
              if_neg (fun hc => by rw [hDut] at hc; exact Bool.false_ne_true hc.1),
              if_neg (fun hc => by rw [hnew] at hc; exact Bool.false_ne_true hc.2)]
          · by_cases hpba : u = b ∧ t = a
            · obtain ⟨hb, ha⟩ := hpba
              subst hb
              subst ha
              rw [hmatch t u,
                if_neg (fun hc => by rw [hDut] at hc; exact Bool.false_ne_true hc.2),
                if_neg (fun hc => by rw [hnew] at hc; exact Bool.false_ne_true hc.1)]
            · have e3 := anySwipeDir_append_of_ne st.swipes
                ⟨u, t, Direction.right⟩ a b Direction.right
                (fun hc => hpab ⟨hc.1, hc.2.1⟩)
              have e4 := anySwipeDir_append_of_ne st.swipes
                ⟨u, t, Direction.right⟩ b a Direction.right
                (fun hc => hpba ⟨hc.1, hc.2.1⟩)
              rw [e3, e4]
              exact hmatch a b

/-- The ledger invariant holds after any run in which the store answered
every reciprocal query. -/
theorem foldl_inv (ops : List Op) (st : LedgerState)
    (hsel : ∀ op ∈ ops, op.selAvail = true) (h : Inv st) :
    Inv (ops.foldl step st) := by
  induction ops generalizing st with
  | nil => exact h
  | cons op ops ih =>
      exact ih _ (fun o ho => hsel o (List.mem_cons_of_mem _ ho))
        (inv_step st op (hsel op (List.mem_cons_self _ _)) h)

theorem runOps_inv (ops : List Op) (hsel : ∀ op ∈ ops, op.selAvail = true) :
    Inv (runOps ops) :=
  foldl_inv ops emptyLedger hsel inv_empty

/-- The swipe-uniqueness half of the invariant needs no assumption at all:
it is enforced by the store's unique constraint on every insert. -/
theorem uniq_step (st : LedgerState) (op : Op)
    (h : ∀ s t, countPair st.swipes s t ≤ 1) :
    ∀ s t, countPair (step st op).swipes s t ≤ 1 := by
  obtain ⟨u, t', d, ins, sel, rnd⟩ := op
  show ∀ s t, countPair (recordSwipe st u t' d ins sel rnd).1.swipes s t ≤ 1
  rw [recordSwipe_cases]
  by_cases h1 : ins = false ∨ anySwipe st.swipes u t' = true
  · rw [if_pos h1]
    exact h
  · rw [if_neg h1]
    push_neg at h1
    have hdup' : anySwipe st.swipes u t' = false := Bool.eq_false_iff.mpr h1.2
    have hcp0 := (anySwipe_eq_false_iff _ _ _).mp hdup'
    by_cases h2 : d = Direction.right ∧ sel = true ∧
        countPairDir (st.swipes ++ [⟨u, t', d⟩]) t' u Direction.right = 1
    · rw [if_pos h2]
      exact unique_insert st.swipes _ h hcp0
    · rw [if_neg h2]
      exact unique_insert st.swipes _ h hcp0

theorem foldl_uniq (ops : List Op) (st : LedgerState)
    (h : ∀ s t, countPair st.swipes s t ≤ 1) :
    ∀ s t, countPair ((ops.foldl step st).swipes) s t ≤ 1 := by
  induction ops generalizing st with
  | nil => exact h
  | cons op ops ih => exact ih _ (uniq_step st op h)

theorem runOps_uniq (ops : List Op) (s t : String) :
    swipeCount (runOps ops) s t ≤ 1 :=
  foldl_uniq ops emptyLedger (fun a b => by simp [emptyLedger, countPair]) s t

/-- After any `recordSwipe` call whose insert reached the store, the pair
`(u, t)` is present in the ledger: either it was already there (duplicate) or
the call inserted it. -/
theorem hasSwiped_after (st : LedgerState) (u t : String) (d : Direction)
    (sel rand : Bool) :
    hasSwiped (recordSwipe st u t d true sel rand).1 u t = true := by
  rw [recordSwipe_cases]
  by_cases h1 : true = false ∨ anySwipe st.swipes u t = true
  · rw [if_pos h1]
    rcases h1 with h | h
    · exact Bool.noConfusion h
    · exact h
  · rw [if_neg h1]
    by_cases h2 : d = Direction.right ∧ sel = true ∧
        countPairDir (st.swipes ++ [⟨u, t, d⟩]) t u Direction.right = 1
    · rw [if_pos h2]
      show anySwipe (st.swipes ++ [⟨u, t, d⟩]) u t = true
      rw [anySwipe_append]
      simp
    · rw [if_neg h2]
      show anySwipe (st.swipes ++ [⟨u, t, d⟩]) u t = true
      rw [anySwipe_append]
      simp

/-- The stack component of `handleSwipe` is the filtered stack. -/
theorem handleSwipe_stack (uid : String) (st : LedgerState) (jobs : List Job)
    (dir : Direction) (id : String) (ins sel rand : Bool) :
    (handleSwipe (some uid) st jobs dir id ins sel rand).1 =
      jobs.filter fun j => decide (j.id ≠ id) := rfl

/-! ## Claim theorems -/

/-- C1. For all users A and B, across any sequence of `recordSwipe` calls in
which the store answers every reciprocal query: a Match record exists for the
pair `{A, B}` if and only if both the A→B and the B→A right-swipe have been
committed to the ledger, regardless of order (the run is an arbitrary
interleaving); moreover the call that commits the second of the two
right-swipes returns `{ isMatch: true }` and leaves a Match record. -/
theorem mutual_match_iff_committed (ops : List Op) (A B : String)
    (hsel : ∀ op ∈ ops, op.selAvail = true) :
    (0 < matchCount (runOps ops) A B ↔
      hasSwipe (runOps ops) A B Direction.right = true ∧
      hasSwipe (runOps ops) B A Direction.right = true) ∧
    (∀ rand, hasSwipe (runOps ops) B A Direction.right = true →
      hasSwiped (runOps ops) A B = false →
      (recordSwipe (runOps ops) A B Direction.right true true rand).2.isMatch
          = true ∧
      0 < matchCount
          (recordSwipe (runOps ops) A B Direction.right true true rand).1 A B) := by
  obtain ⟨huniq, hmatch⟩ := runOps_inv ops hsel
  constructor
  · show 0 < countMatches (runOps ops).match_rows A B ↔
      anySwipeDir (runOps ops).swipes A B Direction.right = true ∧
      anySwipeDir (runOps ops).swipes B A Direction.right = true
    rw [hmatch A B]
    by_cases hc : anySwipeDir (runOps ops).swipes A B Direction.right = true ∧
        anySwipeDir (runOps ops).swipes B A Direction.right = true
    · rw [if_pos hc]
      exact ⟨fun _ => hc, fun _ => Nat.one_pos⟩
    · rw [if_neg hc]
      exact ⟨fun h0 => absurd h0 (Nat.lt_irrefl 0), fun hcc => absurd hcc hc⟩
  · intro rand hBA hAB
    have hBA' : anySwipeDir (runOps ops).swipes B A Direction.right = true := hBA
    have hAB' : anySwipe (runOps ops).swipes A B = false := hAB
    have hAneB : A ≠ B := by
      intro hh
      subst hh
      have h3 := anySwipeDir_imp_anySwipe _ _ _ _ hBA'
      rw [hAB'] at h3
      exact Bool.false_ne_true h3
    have hp := (anySwipeDir_eq_true_iff_pos _ _ _ _).mp hBA'
    have hle := countPairDir_le_countPair (runOps ops).swipes B A Direction.right
    have hu1 := huniq B A
    have hcnt : countPairDir
        ((runOps ops).swipes ++ [⟨A, B, Direction.right⟩]) B A
        Direction.right = 1 := by
      rw [countPairDir_append, if_neg (fun hc => hAneB hc.1)]
      omega
    rw [recordSwipe_cases,
      if_neg (fun hc => hc.elim (fun x => Bool.noConfusion x)
        (fun x => Bool.false_ne_true (hAB' ▸ x))),
      if_pos ⟨rfl, rfl, hcnt⟩]
    refine ⟨rfl, ?_⟩
    show 0 < countMatches ((runOps ops).match_rows ++ [⟨A, B⟩]) A B
    rw [countMatches_append, if_pos (Or.inl ⟨rfl, rfl⟩)]
    omega

/-- Witness for C1 at the concrete run a→b right, b→a right (and, for the
second conjunct, the one-swipe run a→b right followed by the live call b→a
right). -/
theorem mutual_match_iff_committed_witness :
    0 < matchCount (runOps
      [⟨"a", "b", Direction.right, true, true, false⟩,
       ⟨"b", "a", Direction.right, true, true, false⟩]) "a" "b" ∧
    (recordSwipe (runOps [⟨"a", "b", Direction.right, true, true, false⟩])
      "b" "a" Direction.right true true false).2.isMatch = true := by
  constructor
  · exact (mutual_match_iff_committed
      [⟨"a", "b", Direction.right, true, true, false⟩,
       ⟨"b", "a", Direction.right, true, true, false⟩] "a" "b"
      (by decide)).1.mpr (by decide)
  · exact ((mutual_match_iff_committed
      [⟨"a", "b", Direction.right, true, true, false⟩] "b" "a"
      (by decide)).2 false (by decide) (by decide)).1

/-- C2 counterexample. A second `recordSwipe` for the same pair does not fail
with a `DuplicateSwipeError`: the insert is rejected by the store, but the
service swallows the error and returns the development fallback — here, with
the random draw favorable, a success-shaped `{ isMatch: true }` — while the
ledger is left unchanged. -/
theorem duplicate_swipe_no_error :
    (recordSwipe (runOps [⟨"u", "t", Direction.right, true, true, false⟩])
      "u" "t" Direction.right true true true).2 = ⟨true⟩ ∧
    (recordSwipe (runOps [⟨"u", "t", Direction.right, true, true, false⟩])
      "u" "t" Direction.right true true true).1 =
      runOps [⟨"u", "t", Direction.right, true, true, false⟩] := by decide

/-- C2 amended. The ledger never holds two rows for the same
`(swiper, target)` pair — the unique constraint keeps exactly one — but the
second call does not fail with `DuplicateSwipeError`: it returns the
development fallback `{ isMatch: direction == right && rand }` and leaves the
ledger unchanged. -/
theorem duplicate_swipe_single_row (ops : List Op) (U T : String)
    (d : Direction) (sel rand : Bool) :
    swipeCount (runOps ops) U T ≤ 1 ∧
    (hasSwiped (runOps ops) U T = true →
      recordSwipe (runOps ops) U T d true sel rand =
        (runOps ops, ⟨decide (d = Direction.right) && rand⟩)) := by
  refine ⟨runOps_uniq ops U T, fun hdup => ?_⟩
  have hdup' : anySwipe (runOps ops).swipes U T = true := hdup
  rw [recordSwipe_cases, if_pos (Or.inr hdup')]

/-- Witness for C2 at the one-swipe run u→t right and a duplicate right
re-swipe. -/
theorem duplicate_swipe_single_row_witness :
    swipeCount (runOps [⟨"u", "t", Direction.right, true, true, false⟩])
      "u" "t" ≤ 1 ∧
    recordSwipe (runOps [⟨"u", "t", Direction.right, true, true, false⟩])
      "u" "t" Direction.right true true false =
      (runOps [⟨"u", "t", Direction.right, true, true, false⟩], ⟨false⟩) :=
  ⟨(duplicate_swipe_single_row
      [⟨"u", "t", Direction.right, true, true, false⟩]
      "u" "t" Direction.right true false).1,
   (duplicate_swipe_single_row
      [⟨"u", "t", Direction.right, true, true, false⟩]
      "u" "t" Direction.right true false).2 (by decide)⟩

/-- C3 counterexample. The Match record's identity does not use a canonical
ordering of the two participant ids: the row stores
`(user_a, user_b) = (second swiper, first swiper)`, so the two trigger orders
for the same mutual pair produce differently-keyed records. -/
theorem match_row_not_canonical :
    (runOps [⟨"a", "b", Direction.right, true, true, false⟩,
             ⟨"b", "a", Direction.right, true, true, false⟩]).match_rows =
      [⟨"b", "a"⟩] ∧
    (runOps [⟨"b", "a", Direction.right, true, true, false⟩,
             ⟨"a", "b", Direction.right, true, true, false⟩]).match_rows =
      [⟨"a", "b"⟩] ∧
    (⟨"b", "a"⟩ : MatchRow) ≠ (⟨"a", "b"⟩ : MatchRow) := by decide

/-- C3 amended. In any sequential run in which the store answers every
reciprocal query, at most one Match record exists per unordered pair — not
because of a canonical ordering on the Match's identity (there is none), but
because the swipes unique constraint lets each direction's reciprocal check
run at most once and only the later direction finds its reciprocal. -/
theorem match_created_at_most_once (ops : List Op) (A B : String)
    (hsel : ∀ op ∈ ops, op.selAvail = true) :
    matchCount (runOps ops) A B ≤ 1 := by
  obtain ⟨-, hmatch⟩ := runOps_inv ops hsel
  show countMatches (runOps ops).match_rows A B ≤ 1
  rw [hmatch A B]
  split_ifs <;> omega

/-- Witness for C3 at the mutual run a→b, b→a. -/
theorem match_created_at_most_once_witness :
    matchCount (runOps [⟨"a", "b", Direction.right, true, true, false⟩,
      ⟨"b", "a", Direction.right, true, true, false⟩]) "a" "b" ≤ 1 :=
  match_created_at_most_once
    [⟨"a", "b", Direction.right, true, true, false⟩,
     ⟨"b", "a", Direction.right, true, true, false⟩] "a" "b" (by decide)

/-- C4 counterexample. With the store unavailable for the insert, a
right-swipe with a favorable random draw resolves to the success-shaped
result `{ isMatch: true }` — reporting a match — with nothing committed; no
`LedgerUnavailableError` is surfaced. -/
theorem unavailable_insert_reports_match :
    (recordSwipe emptyLedger "alice" "bob" Direction.right false true true).2 =
      ⟨true⟩ ∧
    (recordSwipe emptyLedger "alice" "bob" Direction.right false true true).1 =
      emptyLedger := by decide

/-- C4 amended. When the swipe insert fails because the store is unavailable,
`recordSwipe` does not fail with `LedgerUnavailableError`: it leaves the
ledger unchanged and returns the development fallback
`{ isMatch: direction == right && (Math.random() > 0.8) }`, which can
falsely report a match. -/
theorem unavailable_insert_returns_fallback (st : LedgerState) (u t : String)
    (d : Direction) (sel rand : Bool) :
    recordSwipe st u t d false sel rand =
      (st, ⟨decide (d = Direction.right) && rand⟩) := by
  rw [recordSwipe_cases, if_pos (Or.inl rfl)]

/-- C5 counterexample. When the store cannot answer the reciprocal query
(select unavailable) on a right-swipe whose reciprocal is in fact present,
the result equals the result of a definite no-match on a fresh ledger: both
are `{ isMatch: false }`. The outcome is not surfaced as a distinguishable
`MatchCheckIndeterminate`. -/
theorem failed_check_indistinguishable :
    (recordSwipe (runOps [⟨"b", "a", Direction.right, true, true, false⟩])
        "a" "b" Direction.right true false false).2 =
      (recordSwipe emptyLedger "a" "b" Direction.right true true false).2 ∧
    (recordSwipe (runOps [⟨"b", "a", Direction.right, true, true, false⟩])
        "a" "b" Direction.right true false false).2.isMatch = false := by decide

/-- C5 amended. When the reciprocal query cannot be answered, detection does
fail closed — `{ isMatch: false }` is returned and no Match row is created —
but the outcome is the very value that means "definitely no match"; the
service has no distinguishable unknown outcome. -/
theorem failed_check_fails_closed (st : LedgerState) (u t : String)
    (rand : Bool) (hdup : hasSwiped st u t = false) :
    (recordSwipe st u t Direction.right true false rand).2.isMatch = false ∧
    (recordSwipe st u t Direction.right true false rand).1.match_rows =
      st.match_rows := by
  rw [recordSwipe_cases,
    if_neg (fun hc => hc.elim (fun x => Bool.noConfusion x)
      (fun x => Bool.false_ne_true (hdup ▸ x))),
    if_neg (fun hc => Bool.noConfusion hc.2.1)]
  exact ⟨rfl, rfl⟩

/-- Witness for C5: reciprocal present, select unavailable. -/
theorem failed_check_fails_closed_witness :
    (recordSwipe (runOps [⟨"b", "a", Direction.right, true, true, false⟩])
      "a" "b" Direction.right true false true).2.isMatch = false ∧
    (recordSwipe (runOps [⟨"b", "a", Direction.right, true, true, false⟩])
      "a" "b" Direction.right true false true).1.match_rows =
      (runOps [⟨"b", "a", Direction.right, true, true, false⟩]).match_rows :=
  failed_check_fails_closed
    (runOps [⟨"b", "a", Direction.right, true, true, false⟩]) "a" "b" true
    (by decide)

/-- C6. A LEFT swipe never reports a match and never creates a Match record,
on the normal path and on every fallback path (any insert availability,
select availability and random draw). -/
theorem left_swipe_no_match (st : LedgerState) (u t : String)
    (ins sel rand : Bool) :
    (recordSwipe st u t Direction.left ins sel rand).2.isMatch = false ∧
    (recordSwipe st u t Direction.left ins sel rand).1.match_rows =
      st.match_rows := by
  rw [recordSwipe_cases]
  by_cases h1 : ins = false ∨ anySwipe st.swipes u t = true
  · rw [if_pos h1]
    exact ⟨by simp, rfl⟩
  · rw [if_neg h1, if_neg (fun hc => Direction.noConfusion hc.1)]
    exact ⟨rfl, rfl⟩

/-- C7. A swipe on the card with id `id` removes every card with that id
from the stack, keeps every other card in its original relative order, and
the resulting stack is the same whatever the ledger outcome (insert
availability, select availability, random draw). -/
theorem optimistic_card_removal (uid : String) (st : LedgerState)
    (jobs : List Job) (dir : Direction) (id : String) (ins sel rand : Bool) :
    List.Sublist (handleSwipe (some uid) st jobs dir id ins sel rand).1 jobs ∧
    (∀ j ∈ (handleSwipe (some uid) st jobs dir id ins sel rand).1, j.id ≠ id) ∧
    (∀ j ∈ jobs, j.id ≠ id →
      j ∈ (handleSwipe (some uid) st jobs dir id ins sel rand).1) ∧
    (∀ ins' sel' rand',
      (handleSwipe (some uid) st jobs dir id ins' sel' rand').1 =
        (handleSwipe (some uid) st jobs dir id ins sel rand).1) := by
  rw [handleSwipe_stack]
  refine ⟨List.filter_sublist _, ?_, ?_, ?_⟩
  · intro j hj
    exact of_decide_eq_true (List.mem_filter.mp hj).2
  · intro j hj hne
    exact List.mem_filter.mpr ⟨hj, decide_eq_true hne⟩
  · intro ins' sel' rand'
    rw [handleSwipe_stack]

/-- Witness for C7: swiping `j1` off the mock stack keeps `j2`, and the
result is a sublist of the stack. -/
theorem optimistic_card_removal_witness :
    mockJob2 ∈ (handleSwipe (some "u") emptyLedger MOCK_JOBS Direction.left
      "j1" true true false).1 ∧
    List.Sublist (handleSwipe (some "u") emptyLedger MOCK_JOBS Direction.left
      "j1" true true false).1 MOCK_JOBS :=
  ⟨(optimistic_card_removal "u" emptyLedger MOCK_JOBS Direction.left "j1"
      true true false).2.2.1 mockJob2 (by decide) (by decide),
   (optimistic_card_removal "u" emptyLedger MOCK_JOBS Direction.left "j1"
      true true false).1⟩

/-- C8. `loadData` always ends with `loading = false`; on upstream failure
the stack is the non-empty sample feed `MOCK_JOBS` (degrade, not crash), and
on upstream success it is exactly the fetched list. -/
theorem feed_failure_falls_back (upstream : Except String (List Job))
    (s : AppState) :
    (loadData upstream s).loading = false ∧
    (∀ e, upstream = .error e →
      (loadData upstream s).jobs = MOCK_JOBS ∧
      (loadData upstream s).jobs ≠ []) ∧
    (∀ jobs, upstream = .ok jobs → (loadData upstream s).jobs = jobs) := by
  refine ⟨rfl, ?_, ?_⟩
  · intro e he
    subst he
    exact ⟨rfl, by simp [loadData, getJobs, MOCK_JOBS]⟩
  · intro jobs hj
    subst hj
    rfl

/-- Witness for C8 at a concrete upstream failure. -/
theorem feed_failure_falls_back_witness :
    (loadData (Except.error "network down") ⟨true, []⟩).loading = false ∧
    (loadData (Except.error "network down") ⟨true, []⟩).jobs = MOCK_JOBS :=
  ⟨(feed_failure_falls_back (Except.error "network down") ⟨true, []⟩).1,
   ((feed_failure_falls_back (Except.error "network down") ⟨true, []⟩).2.1
      "network down" rfl).1⟩

/-- C9 counterexample. After `recordSwipe("u", "j1", left)` is committed, a
fetch with the upstream unavailable returns the unfiltered mock feed, which
still contains the card with id `j1`. -/
theorem feed_exclusion_fails_on_fallback :
    hasSwiped (recordSwipe emptyLedger "u" "j1" Direction.left true true
      false).1 "u" "j1" = true ∧
    mockJob1 ∈ fetchFeed
      (recordSwipe emptyLedger "u" "j1" Direction.left true true false).1
      "u" MOCK_JOBS 10 false ∧
    mockJob1.id = "j1" := by decide

/-- C9 amended. After any `recordSwipe(u, T, d)` whose insert reached the
store, the pair is in the ledger, and every subsequent fetch served by the
backend (upstream available) excludes the card with id `T`; only the
mock fallback taken when the upstream is unavailable can still contain it. -/
theorem feed_exclusion_when_upstream_ok (st : LedgerState) (u T : String)
    (d : Direction) (sel rand : Bool) (allJobs : List Job) (limit : Nat) :
    hasSwiped (recordSwipe st u T d true sel rand).1 u T = true ∧
    (∀ j ∈ fetchFeed (recordSwipe st u T d true sel rand).1 u allJobs limit
        true, j.id ≠ T) := by
  refine ⟨hasSwiped_after st u T d sel rand, ?_⟩
  intro j hj
  have hj1 : j ∈ allJobs.filter
      (fun j => !hasSwiped (recordSwipe st u T d true sel rand).1 u j.id) :=
    List.mem_of_mem_take hj
  have hcond := (List.mem_filter.mp hj1).2
  intro heq
  rw [heq, hasSwiped_after st u T d sel rand] at hcond
  exact Bool.noConfusion hcond

/-- Witness for C9: after swiping `j1`, the backend-served feed keeps `j2`
(whose id differs from `j1`). -/
theorem feed_exclusion_when_upstream_ok_witness :
    hasSwiped (recordSwipe emptyLedger "u" "j1" Direction.left true true
      false).1 "u" "j1" = true ∧
    mockJob2.id ≠ "j1" :=
  ⟨(feed_exclusion_when_upstream_ok emptyLedger "u" "j1" Direction.left true
      false MOCK_JOBS 10).1,
   (feed_exclusion_when_upstream_ok emptyLedger "u" "j1" Direction.left true
      false MOCK_JOBS 10).2 mockJob2 (by decide)⟩

/-- C10. `recordSwipe` is total at its interface: for every input and every
store outcome — unavailability, unique-constraint violation, reciprocal
query failure — it resolves to a result of the shape `{ isMatch: b }` with
`b` the explicit boolean below; no case escapes as an exception. -/
theorem recordSwipe_result_shape (st : LedgerState) (u t : String)
    (d : Direction) (ins sel rand : Bool) :
    (recordSwipe st u t d ins sel rand).2.isMatch =
      (if ins = false ∨ hasSwiped st u t = true then
        decide (d = Direction.right) && rand
      else if d = Direction.right ∧ sel = true ∧
          countPairDir (st.swipes ++ [⟨u, t, d⟩]) t u Direction.right = 1 then
        true
      else false) := by
  rw [recordSwipe_cases]
  unfold hasSwiped
  by_cases h1 : ins = false ∨ anySwipe st.swipes u t = true
  · rw [if_pos h1, if_pos h1]
  · rw [if_neg h1, if_neg h1]
    by_cases h2 : d = Direction.right ∧ sel = true ∧
        countPairDir (st.swipes ++ [⟨u, t, d⟩]) t u Direction.right = 1
    · rw [if_pos h2, if_pos h2]
    · rw [if_neg h2, if_neg h2]

end SuperhireX
